import Mathlib

/-
  Verification development for the disaster-information dashboard
  (an Express backend in server.js proxying four public feeds, and a
  browser frontend in app.js rendering them).

  The backend routes are embedded as total Lean functions from an
  upstream-call outcome to an HTTP response carrying a JSON envelope.
  JavaScript truthiness and the shape-guessing on parsed XML / scraped
  HTML are modelled explicitly, following the source line by line.
-/

/-- Cause of a failed upstream interaction: DNS or connection failure,
timeout, non-2xx status (axios throws on these), or a body parse failure.
All of them surface as a thrown exception inside the route handler and are
caught by its catch block. -/
inductive FailCause
| netFail
| timeout
| badStatus
| parseFail
deriving DecidableEq

/-- Outcome of the outbound HTTP call made by a route handler: either some
failure, or a successfully fetched and parsed body of type alpha. -/
inductive Outcome (α : Type)
| fail (c : FailCause)
| ok (body : α)
deriving DecidableEq

/-- The uniform JSON envelope every feed route returns. Fields that a
given response does not set are absent from the JSON object, modelled
here as none. -/
structure Envelope (α : Type) where
  ok : Bool
  source : Option String
  data : Option α
  error : Option String
deriving DecidableEq

/-- An HTTP response: status code plus JSON envelope body. -/
structure Resp (α : Type) where
  status : Nat
  body : Envelope α
deriving DecidableEq

/-- Success envelope, as built by res.json of the ok branch of a route. -/
def okEnv (src : String) (d : α) : Envelope α :=
  { ok := true, source := some src, data := some d, error := none }

/-- Failure envelope, as built by res.status(500).json of a catch block. -/
def failEnv (msg : String) : Envelope α :=
  { ok := false, source := none, data := none, error := some msg }

/-- The envelope invariant stated by the spec: ok implies source and data
present and error absent; not ok implies error present and data absent. -/
def envInv (env : Envelope α) : Prop :=
  (env.ok = true → env.source.isSome = true ∧ env.data.isSome = true ∧ env.error = none)
  ∧ (env.ok = false → env.error.isSome = true ∧ env.data = none)

/- ===== 1) /api/earthquakes (server.js lines 28-37) ===== -/

/-- One property bag of a GeoJSON feature as used by the frontend:
properties.mag may be null (modelled none). Other properties (place, time,
url) do not influence sorting, counting or colors and are omitted. -/
structure EqFeature where
  mag : Option ℚ
deriving DecidableEq

/-- The GeoJSON FeatureCollection body passed through by the earthquakes
route and consumed by the frontend as data.features. -/
structure EqData where
  features : List EqFeature
deriving DecidableEq

/-- GET /api/earthquakes: on success return the raw GeoJSON in a success
envelope with source usgs; on any failure return status 500 with the fixed
error string. -/
def earthquakesHandler : Outcome EqData → Resp EqData
  | .ok b => ⟨200, okEnv "usgs" b⟩
  | .fail _ => ⟨500, failEnv "Failed to fetch earthquakes"⟩

/- ===== 2) /api/tsunami (server.js lines 40-61) ===== -/

/-- The attribute object of a link element as produced by xml2js: the
href attribute may be absent. -/
structure LinkAttrs where
  href : Option String
deriving DecidableEq

/-- One parsed link value: either a plain string (an element with no
attributes and no children parses to a string) or an element object whose
attribute bag (the dollar property) may be absent. -/
inductive LinkItem
| str (s : String)
| elem (attrs : Option LinkAttrs)
deriving DecidableEq

/-- The link field of a parsed entry: absent, a single value, or an array
of values (xml2js with explicitArray false yields an array only when the
element repeats). -/
inductive LinkField
| absent
| single (it : LinkItem)
| seq (its : List LinkItem)
deriving DecidableEq

/-- The summary field of a parsed entry: absent, a plain string, or an
element object with an optional inner-text (the underscore property) and
attribute data. -/
inductive SummaryField
| absent
| str (s : String)
| node (inner : Option String) (hasAttrs : Bool)
deriving DecidableEq

/-- A JavaScript value landing in the summary field of the output object:
either a string or the raw parsed node passed through unchanged. -/
inductive SummaryOut
| str (s : String)
| node (inner : Option String) (hasAttrs : Bool)
deriving DecidableEq

/-- A JavaScript value landing in the link field of the output object:
a string, or undefined (when the array branch reads a missing href). -/
inductive JsStr
| str (s : String)
| undef
deriving DecidableEq

/-- A parsed ATOM entry as seen by the tsunami route. -/
structure AtomEntry where
  id : String
  title : String
  updated : String
  summary : SummaryField
  link : LinkField
deriving DecidableEq

/-- The normalized tsunami entry built by the route. -/
structure TsunamiEntry where
  id : String
  title : String
  updated : String
  summary : SummaryOut
  link : JsStr
deriving DecidableEq

/-- Embedding of the link expression of server.js line 54:
Array.isArray(e.link) ? e.link[0].dollar.href
                      : ((e.link and e.link.dollar and e.link.dollar.href) or emptyString).
The array branch dereferences the first element without guards, so a
first element that is not an attribute-bearing object throws a TypeError
(modelled as Except.error), and a missing href yields undefined. The
non-array branch collapses every missing piece, via JS truthiness, to the
empty string. -/
def extractLink : LinkField → Except Unit JsStr
  | .seq [] => .error ()
  | .seq (.str _ :: _) => .error ()
  | .seq (.elem none :: _) => .error ()
  | .seq (.elem (some a) :: _) =>
    match a.href with
    | some h => .ok (.str h)
    | none => .ok .undef
  | .absent => .ok (.str "")
  | .single (.str _) => .ok (.str "")
  | .single (.elem none) => .ok (.str "")
  | .single (.elem (some a)) =>
    match a.href with
    | none => .ok (.str "")
    | some h => .ok (.str (if h = "" then "" else h))

/-- Embedding of the summary expression of server.js line 53:
(e.summary and e.summary.underscore) ? e.summary.underscore
                                     : (e.summary or emptyString).
A node with a nonempty inner text yields that text; a missing summary
yields the empty string; a node without (nonempty) inner text is an object,
hence truthy, and passes through as the raw node. -/
def extractSummary : SummaryField → SummaryOut
  | .absent => .str ""
  | .str s => .str s
  | .node (some t) attrs => if t = "" then .node (some t) attrs else .str t
  | .node none attrs => .node none attrs

/-- The per-entry mapping function of server.js lines 49-55. It throws
(Except.error) exactly when the link extraction throws. -/
def normalizeEntry (e : AtomEntry) : Except Unit TsunamiEntry :=
  (extractLink e.link).map fun l =>
    { id := e.id, title := e.title, updated := e.updated
      summary := extractSummary e.summary, link := l }

/-- The entry field of the parsed feed object: absent, a single entry
object, or an array of entries. -/
inductive EntryField
| absent
| one (e : AtomEntry)
| many (es : List AtomEntry)
deriving DecidableEq

/-- The parsed feed element. -/
structure Feed where
  entry : EntryField
deriving DecidableEq

/-- server.js line 48: parsed.feed and parsed.feed.entry
? (Array.isArray(parsed.feed.entry) ? parsed.feed.entry : [parsed.feed.entry])
: []. The parsed document may lack the feed element entirely (none). -/
def entriesList : Option Feed → List AtomEntry
  | none => []
  | some f =>
    match f.entry with
    | .absent => []
    | .one e => [e]
    | .many es => es

/-- entries.map over a function that may throw: the first throw aborts the
whole map and propagates (to the route catch block). -/
def mapEntries : List AtomEntry → Except Unit (List TsunamiEntry)
  | [] => .ok []
  | e :: rest =>
    match normalizeEntry e with
    | .error u => .error u
    | .ok t =>
      match mapEntries rest with
      | .error u => .error u
      | .ok ts => .ok (t :: ts)

/-- Body of the tsunami route after a successful fetch: build the entries
list and map each entry. -/
def tsunamiNormalize (p : Option Feed) : Except Unit (List TsunamiEntry) :=
  mapEntries (entriesList p)

/-- GET /api/tsunami: fetch and parse the ATOM feed, normalize the
entries; every failure, including a throw inside the normalization,
reaches the catch block and yields status 500 with the fixed string. -/
def tsunamiHandler : Outcome (Option Feed) → Resp (List TsunamiEntry)
  | .fail _ => ⟨500, failEnv "Failed to fetch tsunami feed"⟩
  | .ok p =>
    match tsunamiNormalize p with
    | .ok out => ⟨200, okEnv "tsunami.gov" out⟩
    | .error _ => ⟨500, failEnv "Failed to fetch tsunami feed"⟩

/- ===== 3) /api/volcanoes (server.js lines 64-95) ===== -/

/-- One extracted volcano entry. -/
structure VolcanoEntry where
  name : String
  status : String
deriving DecidableEq

/-- What the handler observes of the loaded HTML document through cheerio:
the td text contents of each table row, and the text content of each list
item. cheerio.load is lenient and never throws, so any document maps to
such a pair. -/
structure VolcanoDoc where
  rows : List (List String)
  items : List String
deriving DecidableEq

/-- JavaScript String.prototype.trim: drop leading and trailing
whitespace. Defined structurally over the character list so that it
evaluates on concrete inputs. -/
def jsTrim (s : String) : String :=
  String.mk (((s.data.dropWhile Char.isWhitespace).reverse.dropWhile Char.isWhitespace).reverse)

/-- JavaScript s.substring(0, n): the first n characters. -/
def jsSubstrTo (s : String) (n : Nat) : String :=
  String.mk (s.data.take n)

/-- Loop body of the table scan (server.js lines 72-81): skip once 8
entries are collected; for a row with at least one cell take cell 0 text
trimmed as name, skipping empty names, and cell 1 text trimmed (empty when
the cell is missing) as status. -/
def tableStep (acc : List VolcanoEntry) (tds : List String) : List VolcanoEntry :=
  if 8 ≤ acc.length then acc
  else
    match tds with
    | [] => acc
    | c0 :: rest =>
      let name := jsTrim c0
      if name = "" then acc
      else acc ++ [{ name := name, status := jsTrim (rest.headD "") }]

/-- The table-row extraction strategy. -/
def tableScan (rows : List (List String)) : List VolcanoEntry :=
  rows.foldl tableStep []

/-- Loop body of the fallback scan (server.js lines 84-88): skip once 8
entries are collected; emit an entry for any list item whose trimmed text
is longer than 10 characters, truncating the name to 60 characters. -/
def listStep (acc : List VolcanoEntry) (li : String) : List VolcanoEntry :=
  if 8 ≤ acc.length then acc
  else
    if 10 < (jsTrim li).length then
      acc ++ [{ name := jsSubstrTo (jsTrim li) 60, status := "" }]
    else acc

/-- The list-item fallback strategy. -/
def listScan (items : List String) : List VolcanoEntry :=
  items.foldl listStep []

/-- server.js lines 70-89: run the table scan; if it produced nothing,
run the fallback over list items. -/
def volcanoScan (d : VolcanoDoc) : List VolcanoEntry :=
  let eruptions := tableScan d.rows
  if eruptions = [] then listScan d.items else eruptions

/-- GET /api/volcanoes: scrape the page and answer with the scanned
entries capped by slice(0, 8); failures yield 500 with the fixed string. -/
def volcanoesHandler : Outcome VolcanoDoc → Resp (List VolcanoEntry)
  | .ok d => ⟨200, okEnv "gvp" ((volcanoScan d).take 8)⟩
  | .fail _ => ⟨500, failEnv "Failed to fetch volcano info"⟩

/- ===== 4) /api/floods (server.js lines 98-117) ===== -/

/-- The fields object of one ReliefWeb report record: the title may be
absent, and the url field is multi-valued (a JSON array) when present. -/
structure FloodFields where
  title : Option String
  url : Option (List String)
deriving DecidableEq

/-- One record of the upstream search response; its fields object may be
absent. -/
structure FloodRecord where
  fields : Option FloodFields
deriving DecidableEq

/-- The upstream paginated search response, passed through unmodified by
the route; its data member holds the records. -/
structure FloodResp where
  data : List FloodRecord
deriving DecidableEq

/-- The limit request parameter sent to the upstream search API
(server.js line 105). -/
def floodRequestLimit : Nat := 6

/-- GET /api/floods: pass the upstream response through in a success
envelope with source reliefweb; failures yield 500 with the fixed
string. -/
def floodsHandler : Outcome FloodResp → Resp FloodResp
  | .ok b => ⟨200, okEnv "reliefweb" b⟩
  | .fail _ => ⟨500, failEnv "Failed to fetch flood reports"⟩

/- ===== Frontend (app.js) ===== -/

/-- A JavaScript value landing in the url binding of the flood renderer:
a string, null, or undefined (a present but empty url array). -/
inductive JsUrl
| str (s : String)
| null
| undef
deriving DecidableEq

/-- app.js line 90: r.fields and r.fields.title ? r.fields.title
: the string Report. An empty title string is falsy and also falls back. -/
def floodTitle (r : FloodRecord) : String :=
  match r.fields with
  | none => "Report"
  | some f =>
    match f.title with
    | none => "Report"
    | some t => if t = "" then "Report" else t

/-- app.js line 91: r.fields and r.fields.url ? r.fields.url[0] : null.
An array is truthy even when empty, in which case indexing yields
undefined. -/
def floodUrl (r : FloodRecord) : JsUrl :=
  match r.fields with
  | none => .null
  | some f =>
    match f.url with
    | none => .null
    | some [] => .undef
    | some (h :: _) => .str h

/-- One rendered flood list item: the title text and the link target. -/
structure FloodItem where
  title : String
  url : JsUrl
deriving DecidableEq

/-- app.js lines 89-95: map every record of flood.data.data to a rendered
list item. -/
def renderFloodList (resp : FloodResp) : List FloodItem :=
  resp.data.map fun r => { title := floodTitle r, url := floodUrl r }

/-- The magnitude a feature contributes: f.properties.mag with null
coerced to 0, as happens both in the sort comparator (numeric subtraction)
and in the renderer (mag or 0). -/
def magVal (f : EqFeature) : ℚ := f.mag.getD 0

/-- The descending-magnitude order imposed by the comparator of app.js
line 32, (a, b) mapsto b.properties.mag - a.properties.mag: a precedes b
exactly when the magnitude of b is at most the magnitude of a. -/
def eqSortRel (a b : EqFeature) : Prop := magVal b ≤ magVal a

instance : DecidableRel eqSortRel :=
  fun a b => inferInstanceAs (Decidable (magVal b ≤ magVal a))

instance : IsTotal EqFeature eqSortRel :=
  ⟨fun a b => le_total (magVal b) (magVal a)⟩

instance : IsTrans EqFeature eqSortRel :=
  ⟨fun _ _ _ h1 h2 => le_trans h2 h1⟩

/-- A stable comparison sort standing for Array.prototype.sort with the
descending-magnitude comparator. -/
def sortFeatures (fs : List EqFeature) : List EqFeature :=
  fs.insertionSort eqSortRel

/-- app.js line 32: sort descending by magnitude and slice(0, 50); the
result is the list of features rendered, in rendering order. -/
def renderEqList (fs : List EqFeature) : List EqFeature :=
  (sortFeatures fs).take 50

/-- app.js line 44: mag at least 5 gives red, else at least 3 gives
orange, else yellow. -/
def markerColor (m : ℚ) : String :=
  if 5 ≤ m then "red" else if 3 ≤ m then "orange" else "yellow"

/-- The color of the circle marker drawn for a feature. -/
def featureColor (f : EqFeature) : String := markerColor (magVal f)

/- ===== Helper lemmas ===== -/

/-- A successful mapEntries run normalizes the entries pointwise, in
order. -/
theorem mapEntries_forall2 : ∀ es ts, mapEntries es = .ok ts →
    List.Forall₂ (fun e t => normalizeEntry e = .ok t) es ts := by
  intro es
  induction es with
  | nil =>
    intro ts h
    simp [mapEntries] at h
    subst h
    exact .nil
  | cons e rest ih =>
    intro ts h
    cases he : normalizeEntry e with
    | error u => simp [mapEntries, he] at h
    | ok t =>
      cases hr : mapEntries rest with
      | error u => simp [mapEntries, he, hr] at h
      | ok ts2 =>
        simp [mapEntries, he, hr] at h
        subst h
        exact .cons he (ih ts2 hr)

/- ===== Claim theorems ===== -/

/-- C1: for every feed route and every outcome of the upstream call, the
returned envelope satisfies the invariant: ok implies source and data
present and error absent; not ok implies error present and data absent. -/
theorem feed_envelope_invariant :
    (∀ o : Outcome EqData, envInv (earthquakesHandler o).body)
    ∧ (∀ o : Outcome (Option Feed), envInv (tsunamiHandler o).body)
    ∧ (∀ o : Outcome VolcanoDoc, envInv (volcanoesHandler o).body)
    ∧ (∀ o : Outcome FloodResp, envInv (floodsHandler o).body) := by
  refine ⟨fun o => ?_, fun o => ?_, fun o => ?_, fun o => ?_⟩
  · cases o <;> simp [earthquakesHandler, envInv, okEnv, failEnv]
  · cases o with
    | fail c => simp [tsunamiHandler, envInv, failEnv]
    | ok p =>
      cases h : tsunamiNormalize p with
      | ok out => simp [tsunamiHandler, h, envInv, okEnv]
      | error u => simp [tsunamiHandler, h, envInv, failEnv]
  · cases o <;> simp [volcanoesHandler, envInv, okEnv, failEnv]
  · cases o <;> simp [floodsHandler, envInv, okEnv, failEnv]

/-- C2: every upstream failure mode yields, on each route, status 500 with
the fixed per-route error string (independent of the cause), and a throw
inside the tsunami normalization reaches the same catch block; the
handlers are total functions, so no exception propagates. -/
theorem feed_error_uniformity : ∀ c : FailCause,
    earthquakesHandler (.fail c) = ⟨500, failEnv "Failed to fetch earthquakes"⟩
    ∧ tsunamiHandler (.fail c) = ⟨500, failEnv "Failed to fetch tsunami feed"⟩
    ∧ volcanoesHandler (.fail c) = ⟨500, failEnv "Failed to fetch volcano info"⟩
    ∧ floodsHandler (.fail c) = ⟨500, failEnv "Failed to fetch flood reports"⟩
    ∧ (∀ p, tsunamiNormalize p = .error () →
        tsunamiHandler (.ok p) = ⟨500, failEnv "Failed to fetch tsunami feed"⟩) := by
  intro c
  refine ⟨rfl, rfl, rfl, rfl, fun p h => ?_⟩
  simp [tsunamiHandler, h]

/-- Witness for C2: a feed whose single entry has an empty link array
makes the normalization throw, and the route answers 500 with the fixed
string. -/
theorem feed_error_uniformity_witness :
    tsunamiHandler (.ok (some ⟨.one ⟨"a", "b", "c", .absent, .seq []⟩⟩))
      = ⟨500, failEnv "Failed to fetch tsunami feed"⟩ :=
  (feed_error_uniformity .timeout).2.2.2.2 _ rfl

/-- C3: the tsunami normalizer always produces a list: a scalar entry
field yields a one-element list with that normalized entry, a missing
entry field yields the empty list, and a list entry field is normalized
elementwise in order. -/
theorem tsunami_entries_list_shape :
    tsunamiNormalize (some ⟨.absent⟩) = .ok []
    ∧ (∀ e t, normalizeEntry e = .ok t → tsunamiNormalize (some ⟨.one e⟩) = .ok [t])
    ∧ (∀ es ts, tsunamiNormalize (some ⟨.many es⟩) = .ok ts →
        List.Forall₂ (fun e t => normalizeEntry e = .ok t) es ts) := by
  refine ⟨rfl, fun e t h => ?_, fun es ts h => mapEntries_forall2 es ts h⟩
  simp [tsunamiNormalize, entriesList, mapEntries, h]

/-- Witness for C3: a concrete single-entry feed normalizes to a
one-element list. -/
theorem tsunami_entries_list_shape_witness :
    tsunamiNormalize
        (some ⟨.one ⟨"id1", "Alert", "2020", .str "sum",
          .single (.elem (some ⟨some "https://x"⟩))⟩⟩)
      = .ok [⟨"id1", "Alert", "2020", .str "sum", .str "https://x"⟩] :=
  tsunami_entries_list_shape.2.1 _ _ rfl

/-- C4: when the link field is an array headed by a link element with an
href, the normalized link is that href; when it is a single link element
with an href, the normalized link is that href. -/
theorem tsunami_link_first_href :
    (∀ e h rest, e.link = .seq (.elem (some ⟨some h⟩) :: rest) →
      ∃ t, normalizeEntry e = .ok t ∧ t.link = .str h)
    ∧ (∀ e h, e.link = .single (.elem (some ⟨some h⟩)) →
      ∃ t, normalizeEntry e = .ok t ∧ t.link = .str h) := by
  constructor
  · intro e h rest hl
    refine ⟨⟨e.id, e.title, e.updated, extractSummary e.summary, .str h⟩, ?_, rfl⟩
    simp [normalizeEntry, hl, extractLink, Except.map]
  · intro e h hl
    refine ⟨⟨e.id, e.title, e.updated, extractSummary e.summary,
      .str (if h = "" then "" else h)⟩, ?_, ?_⟩
    · simp [normalizeEntry, hl, extractLink, Except.map]
    · by_cases hh : h = "" <;> simp [hh]

/-- Witness for C4: a two-link entry normalizes to the href of the first
link. -/
theorem tsunami_link_first_href_witness :
    ∃ t, normalizeEntry ⟨"i", "t", "u", .absent,
        .seq [.elem (some ⟨some "https://a"⟩), .elem (some ⟨some "https://b"⟩)]⟩
      = .ok t ∧ t.link = .str "https://a" :=
  tsunami_link_first_href.1 _ "https://a" [.elem (some ⟨some "https://b"⟩)] rfl

/-- C10 (amended): a missing link field or a single link element without
an href normalizes to the empty-string link with the entry still emitted;
a missing summary normalizes to the empty string and a summary node with
nonempty inner text to that text; but a summary node carrying attributes
with no inner text passes through as the raw node, not as a string. -/
theorem tsunami_missing_pieces_defaults :
    (∀ e, e.link = .absent → ∃ t, normalizeEntry e = .ok t ∧ t.link = .str "")
    ∧ (∀ e, e.link = .single (.elem none) → ∃ t, normalizeEntry e = .ok t ∧ t.link = .str "")
    ∧ (∀ e, e.link = .single (.elem (some ⟨none⟩)) →
        ∃ t, normalizeEntry e = .ok t ∧ t.link = .str "")
    ∧ (∀ e t, normalizeEntry e = .ok t → e.summary = .absent → t.summary = .str "")
    ∧ (∀ e t s a, normalizeEntry e = .ok t → e.summary = .node (some s) a → s ≠ "" →
        t.summary = .str s)
    ∧ (∀ e t a, normalizeEntry e = .ok t → e.summary = .node none a →
        t.summary = .node none a) := by
  have hsum : ∀ e t, normalizeEntry e = .ok t → t.summary = extractSummary e.summary := by
    intro e t hn
    cases hl : extractLink e.link with
    | error u => simp [normalizeEntry, hl, Except.map] at hn
    | ok l =>
      simp [normalizeEntry, hl, Except.map] at hn
      subst hn
      rfl
  refine ⟨fun e hl => ?_, fun e hl => ?_, fun e hl => ?_,
    fun e t hn hs => ?_, fun e t s a hn hs hne => ?_, fun e t a hn hs => ?_⟩
  · exact ⟨⟨e.id, e.title, e.updated, extractSummary e.summary, .str ""⟩,
      by simp [normalizeEntry, hl, extractLink, Except.map], rfl⟩
  · exact ⟨⟨e.id, e.title, e.updated, extractSummary e.summary, .str ""⟩,
      by simp [normalizeEntry, hl, extractLink, Except.map], rfl⟩
  · exact ⟨⟨e.id, e.title, e.updated, extractSummary e.summary, .str ""⟩,
      by simp [normalizeEntry, hl, extractLink, Except.map], rfl⟩
  · rw [hsum e t hn, hs]; rfl
  · rw [hsum e t hn, hs]; simp [extractSummary, hne]
  · rw [hsum e t hn, hs]; rfl

/-- Witness for C10: a concrete entry without a link field normalizes to
an emitted entry with an empty-string link. -/
theorem tsunami_missing_pieces_defaults_witness :
    ∃ t, normalizeEntry ⟨"i", "t", "u", .node (some "S") true, .absent⟩
      = .ok t ∧ t.link = .str "" :=
  tsunami_missing_pieces_defaults.1 _ rfl

/-- Counterexample for C10 as stated: an attribute-carrying summary node
with no inner text is not normalized to its inner text or the empty
string; the raw node object passes through instead. -/
theorem tsunami_summary_raw_node_counterexample :
    normalizeEntry ⟨"i", "t", "u", .node none true, .absent⟩
      = .ok ⟨"i", "t", "u", .node none true, .str ""⟩
    ∧ SummaryOut.node none true ≠ SummaryOut.str "" :=
  ⟨rfl, by decide⟩

/-- Closed form of the fallback loop: starting from an accumulator below
the cap, it appends one entry per remaining trimmed item longer than 10
characters, until 8 entries are held in total. -/
theorem foldl_listStep_eq (items : List String) :
    ∀ acc : List VolcanoEntry, acc.length ≤ 8 →
      items.foldl listStep acc =
        acc ++ ((((items.map jsTrim).filter fun t => 10 < t.length).take (8 - acc.length)).map
          fun t => { name := jsSubstrTo t 60, status := "" }) := by
  induction items with
  | nil => intro acc h; simp
  | cons li rest ih =>
    intro acc h
    rw [List.foldl_cons]
    by_cases h8 : 8 ≤ acc.length
    · have hacc : acc.length = 8 := le_antisymm h h8
      have hstep : listStep acc li = acc := by simp [listStep, h8]
      rw [hstep, ih acc h]
      simp [hacc]
    · by_cases hp : 10 < (jsTrim li).length
      · have hstep : listStep acc li =
            acc ++ [{ name := jsSubstrTo (jsTrim li) 60, status := "" }] := by
          simp [listStep, h8, hp]
        have hlen : (acc ++ [({ name := jsSubstrTo (jsTrim li) 60, status := "" } : VolcanoEntry)]).length ≤ 8 := by
          simp only [List.length_append, List.length_singleton]
          omega
        rw [hstep, ih _ hlen]
        have htake : 8 - acc.length = (8 - (acc.length + 1)) + 1 := by omega
        simp only [List.length_append, List.length_singleton]
        rw [htake]
        conv_rhs => rw [List.map_cons, List.filter_cons]
        simp [hp, List.take_succ_cons]
      · have hstep : listStep acc li = acc := by simp [listStep, h8, hp]
        rw [hstep, ih acc h]
        conv_rhs => rw [List.map_cons, List.filter_cons]
        simp [hp]

/-- The fallback strategy in closed form: one entry per trimmed list item
longer than 10 characters, capped at 8, names truncated to 60. -/
theorem listScan_eq (items : List String) :
    listScan items =
      (((items.map jsTrim).filter fun t => 10 < t.length).take 8).map
        fun t => { name := jsSubstrTo t 60, status := "" } := by
  have h := foldl_listStep_eq items [] (by simp)
  simpa [listScan] using h

/-- C5: the volcano handler is a total function (never throws): on every
outcome it answers either the fixed error envelope with status 500, or a
success envelope with source gvp holding at most 8 entries; and when
neither extraction strategy finds anything, it answers ok with the empty
list, not an error. -/
theorem volcano_safe :
    (∀ o : Outcome VolcanoDoc,
      ((volcanoesHandler o).status = 500
        ∧ (volcanoesHandler o).body = failEnv "Failed to fetch volcano info")
      ∨ ∃ l : List VolcanoEntry, (volcanoesHandler o).status = 200
          ∧ (volcanoesHandler o).body = okEnv "gvp" l ∧ l.length ≤ 8)
    ∧ (∀ d : VolcanoDoc, tableScan d.rows = [] → listScan d.items = [] →
        volcanoesHandler (.ok d) = ⟨200, okEnv "gvp" []⟩) := by
  constructor
  · intro o
    cases o with
    | fail c => exact .inl ⟨rfl, rfl⟩
    | ok d =>
      refine .inr ⟨(volcanoScan d).take 8, rfl, rfl, ?_⟩
      rw [List.length_take]
      exact min_le_left _ _
  · intro d h1 h2
    simp [volcanoesHandler, volcanoScan, h1, h2, okEnv]

/-- Witness for C5: a document with no table rows and no list items gets
the ok envelope with the empty list. -/
theorem volcano_safe_witness :
    volcanoesHandler (.ok ⟨[], []⟩) = ⟨200, okEnv "gvp" []⟩ :=
  volcano_safe.2 ⟨[], []⟩ rfl rfl

/-- C6: the fallback runs only when the table strategy finds nothing:
with a nonempty table scan the response data is the table entries (capped
at 8) and the list items are never consulted; with an empty table scan the
response data is exactly one entry per trimmed list item longer than 10
characters, name truncated to 60 characters, empty status, stopping at
8. -/
theorem volcano_fallback (d : VolcanoDoc) :
    (tableScan d.rows ≠ [] →
      (volcanoesHandler (.ok d)).body.data = some ((tableScan d.rows).take 8))
    ∧ (tableScan d.rows = [] →
      (volcanoesHandler (.ok d)).body.data =
        some ((((d.items.map jsTrim).filter fun t => 10 < t.length).take 8).map
          fun t => { name := jsSubstrTo t 60, status := "" })) := by
  constructor
  · intro hne
    simp [volcanoesHandler, okEnv, volcanoScan, hne]
  · intro he
    have h1 : volcanoScan d = listScan d.items := by simp [volcanoScan, he]
    have h2 := listScan_eq d.items
    have hlen : (listScan d.items).length ≤ 8 := by
      rw [h2, List.length_map, List.length_take]
      exact min_le_left _ _
    have : (volcanoScan d).take 8 = listScan d.items := by
      rw [h1]
      exact List.take_of_length_le hlen
    simp [volcanoesHandler, okEnv, this, h2]

/-- Witness for C6: with no table rows and one long list item, the
response data is that item as a single entry. -/
theorem volcano_fallback_witness :
    (volcanoesHandler (.ok ⟨[], ["hello world items"]⟩)).body.data =
      some [{ name := "hello world items", status := "" }] := by
  have h := (volcano_fallback ⟨[], ["hello world items"]⟩).2 rfl
  rw [h]
  rfl

/-- C7: a successful flood response passes the upstream body through, so
when the upstream honors the requested limit parameter (6), data.data has
at most 6 records; the frontend maps each record to a title and url pair,
where url is the head of the multi-valued url field when present and null
when the fields object or the url field is absent. -/
theorem flood_shape :
    (∀ resp : FloodResp, resp.data.length ≤ floodRequestLimit →
      (floodsHandler (.ok resp)).body.data = some resp ∧ resp.data.length ≤ 6)
    ∧ (∀ r f h rest, r.fields = some f → f.url = some (h :: rest) → floodUrl r = .str h)
    ∧ (∀ r : FloodRecord, r.fields = none → floodUrl r = .null)
    ∧ (∀ r f, r.fields = some f → f.url = none → floodUrl r = .null)
    ∧ (∀ resp : FloodResp,
        renderFloodList resp = resp.data.map fun r => ⟨floodTitle r, floodUrl r⟩) := by
  refine ⟨fun resp h => ⟨rfl, h⟩, fun r f h rest hf hu => ?_, fun r hf => ?_,
    fun r f hf hu => ?_, fun resp => rfl⟩
  · simp [floodUrl, hf, hu]
  · simp [floodUrl, hf]
  · simp [floodUrl, hf, hu]

/-- Witness for C7: a one-record response passes through and the record
with a two-element url field renders with the first url. -/
theorem flood_shape_witness :
    (floodsHandler (.ok ⟨[⟨some ⟨some "T", some ["https://r", "x"]⟩⟩]⟩)).body.data
      = some ⟨[⟨some ⟨some "T", some ["https://r", "x"]⟩⟩]⟩
    ∧ floodUrl ⟨some ⟨some "T", some ["https://r", "x"]⟩⟩ = .str "https://r" :=
  ⟨(flood_shape.1 ⟨[⟨some ⟨some "T", some ["https://r", "x"]⟩⟩]⟩ (by decide)).1,
   flood_shape.2.1 _ ⟨some "T", some ["https://r", "x"]⟩ "https://r" ["x"] rfl rfl⟩

/-- C8: the frontend renders the features sorted by magnitude descending
and keeps at most the top 50; on the magnitudes 5.2, 2.1, 6.8 the
rendering order is 6.8, 5.2, 2.1. -/
theorem eq_sort_topk :
    (∀ fs : List EqFeature, (renderEqList fs).length ≤ 50)
    ∧ (∀ fs : List EqFeature, List.Sorted eqSortRel (renderEqList fs))
    ∧ (renderEqList [⟨some 5.2⟩, ⟨some 2.1⟩, ⟨some 6.8⟩]).map magVal
        = [6.8, 5.2, 2.1] := by
  refine ⟨fun fs => ?_, fun fs => ?_, ?_⟩
  · rw [renderEqList, List.length_take]
    exact min_le_left _ _
  · exact List.Pairwise.sublist (List.take_sublist 50 _)
      (List.sorted_insertionSort eqSortRel fs)
  · norm_num [renderEqList, sortFeatures, List.insertionSort, List.orderedInsert,
      magVal, eqSortRel]

/-- C9: the marker color is the function of magnitude alone given by the
bands red at 5 and above, orange from 3 up to 5, yellow below 3. -/
theorem eq_marker_bands (f : EqFeature) :
    (5 ≤ magVal f → featureColor f = "red")
    ∧ (3 ≤ magVal f → magVal f < 5 → featureColor f = "orange")
    ∧ (magVal f < 3 → featureColor f = "yellow") := by
  refine ⟨fun h5 => ?_, fun h3 h5 => ?_, fun h3 => ?_⟩
  · simp [featureColor, markerColor, h5]
  · rw [featureColor, markerColor, if_neg (not_le.mpr h5), if_pos h3]
  · rw [featureColor, markerColor, if_neg (not_le.mpr (lt_trans h3 (by norm_num))),
      if_neg (not_le.mpr h3)]

/-- Witness for C9: magnitudes 6, 4 and 1 land in the red, orange and
yellow bands. -/
theorem eq_marker_bands_witness :
    featureColor ⟨some 6⟩ = "red"
    ∧ featureColor ⟨some 4⟩ = "orange"
    ∧ featureColor ⟨some 1⟩ = "yellow" :=
  ⟨(eq_marker_bands ⟨some 6⟩).1 (by norm_num [magVal]),
   (eq_marker_bands ⟨some 4⟩).2.1 (by norm_num [magVal]) (by norm_num [magVal]),
   (eq_marker_bands ⟨some 1⟩).2.2 (by norm_num [magVal])⟩
